import Mathlib

/-!
Verification development for the DeFiFlow delegated-action lending protocol.

The definitions below are a shallow embedding of the repository's core:

* `contracts/LendingPool.sol` (the EIP-712 delegated-signing variant, with
  `accrue`, `deposit`, `withdraw`, `previewBalance`, and the five
  `execute*` entry points) — Solidity 0.8 checked uint256 arithmetic is
  modelled on `Nat` with explicit bounds checks that fail with
  `EvmError.arithmeticOverflow` (a revert), mirroring overflow/underflow
  panics; a revert aborts the whole call, so each operation is a function
  `PoolState → Except EvmError PoolState` and the pre-state is kept on
  failure by the caller.
* the OpenZeppelin `ERC20` that `DUSD.sol` instantiates (balance and
  allowance checks of `transferFrom` / `transfer`; the recipient-balance
  addition is inside `unchecked` in OpenZeppelin 5.x and therefore wraps
  modulo `2^256`).
* the relay gateway's `POST /api/deposit` route, in both variants present
  in the repository: the basic server (responses carry only an `error`
  message) and the secure server (responses additionally carry a `code`
  field and a multi-signature threshold check).

ECDSA recovery over the EIP-712 digest is modelled symbolically: the digest
of an action is the action value itself tagged by its type (the typehash
plus injective struct encoding of a collision-free hash), and `recover` is
an arbitrary function parameter `Action → String → Nat`, so theorems hold
for every possible recovery behaviour.
-/

namespace DeFiFlow

/-- Ray fixed-point scale, `uint256 public constant RAY = 1e27`. -/
def RAY : Nat := 10 ^ 27

/-- One past the largest `uint256` value. -/
def U256 : Nat := 2 ^ 256

/-- A `Nat` fits in a `uint256`. -/
def fits (n : Nat) : Prop := n < U256

instance (n : Nat) : Decidable (fits n) := by unfold fits; infer_instance

/-- Ethereum addresses are modelled as natural numbers. -/
abbrev Address := Nat

/-- Pointwise update of a Solidity `mapping`. -/
def upd (f : Address → Nat) (k v : Nat) : Address → Nat :=
  fun x => if x = k then v else f x

@[simp] theorem upd_same (f : Address → Nat) (k v : Nat) : upd f k v k = v := by
  simp [upd]

@[simp] theorem upd_other (f : Address → Nat) (k v x : Nat) (h : x ≠ k) :
    upd f k v x = f x := by
  simp [upd, h]

/-- Revert reasons of the modelled contracts.  Each constructor stands for a
distinct revert message / panic of the source. -/
inductive EvmError where
  /-- `require(block.timestamp <= action.deadline, "Signature expired")`. -/
  | signatureExpired
  /-- `require(action.nonce == nonces[msg.sender], "Invalid nonce")`. -/
  | invalidNonce
  /-- `require(signer == msg.sender, "Invalid signature")`. -/
  | invalidSignature
  /-- `require(deposits[msg.sender] >= amount, "Insufficient balance")`. -/
  | insufficientBalance
  /-- OpenZeppelin `ERC20InsufficientBalance`. -/
  | erc20InsufficientBalance
  /-- OpenZeppelin `ERC20InsufficientAllowance`. -/
  | erc20InsufficientAllowance
  /-- Solidity 0.8 checked-arithmetic panic (overflow or underflow). -/
  | arithmeticOverflow
  /-- Solidity panic on division by zero. -/
  | divisionByZero
  /-- `require(success, "RWA mint failed")` and the analogous transfer/burn
  failure of the low-level call to the RWA token. -/
  | externalCallFailed
  deriving DecidableEq, Repr

/-- Checked `uint256` addition (Solidity 0.8 default semantics). -/
def cadd (a b : Nat) : Except EvmError Nat :=
  if a + b < U256 then .ok (a + b) else .error .arithmeticOverflow

/-- Checked `uint256` subtraction. -/
def csub (a b : Nat) : Except EvmError Nat :=
  if b ≤ a then .ok (a - b) else .error .arithmeticOverflow

/-- Checked `uint256` multiplication. -/
def cmul (a b : Nat) : Except EvmError Nat :=
  if a * b < U256 then .ok (a * b) else .error .arithmeticOverflow

/-- Checked `uint256` division (reverts on a zero divisor). -/
def cdiv (a b : Nat) : Except EvmError Nat :=
  if b = 0 then .error .divisionByZero else .ok (a / b)

/-! ## ERC20 token (OpenZeppelin 5.x, as instantiated by `DUSD.sol`) -/

/-- Balances and allowances of the `dUSD` ERC20 token. -/
structure ERC20State where
  balances : Address → Nat
  allowances : Address → Address → Nat

/-- `ERC20._update` for a plain transfer: checks the source balance, then
subtracts from the source and adds to the destination; the destination
addition is inside `unchecked` in the OpenZeppelin source and therefore
wraps modulo `2^256`. -/
def erc20Transfer (t : ERC20State) (src dst amount : Nat) : Except EvmError ERC20State :=
  if t.balances src < amount then .error .erc20InsufficientBalance
  else
    let b1 := upd t.balances src (t.balances src - amount)
    let b2 := upd b1 dst ((b1 dst + amount) % U256)
    .ok { t with balances := b2 }

/-- `ERC20._spendAllowance`: an allowance of `uint256.max` is infinite and is
not decremented; otherwise the allowance must cover the amount and is
reduced by it. -/
def erc20SpendAllowance (t : ERC20State) (owner spender amount : Nat) :
    Except EvmError ERC20State :=
  if t.allowances owner spender < U256 - 1 then
    if t.allowances owner spender < amount then .error .erc20InsufficientAllowance
    else
      .ok { t with allowances := fun o s =>
        if o = owner ∧ s = spender then t.allowances owner spender - amount
        else t.allowances o s }
  else .ok t

/-- `ERC20.transferFrom spender` semantics: spend the allowance, then move the
balance. -/
def erc20TransferFrom (t : ERC20State) (spender src dst amount : Nat) :
    Except EvmError ERC20State :=
  match erc20SpendAllowance t src spender amount with
  | .error e => .error e
  | .ok t1 => erc20Transfer t1 src dst amount

/-! ## LendingPool state and direct operations -/

/-- The address of the deployed `LendingPool` contract (`address(this)` in the
source); an arbitrary fixed label. -/
def poolAddr : Address := 10 ^ 40

/-- Storage of the `LendingPool` contract together with the `dUSD` token it
holds a reference to. -/
structure PoolState where
  /-- `uint256 public ratePerSecond` (ray). -/
  ratePerSecond : Nat
  /-- `uint256 public lastUpdate`. -/
  lastUpdate : Nat
  /-- `uint256 public index` (ray, initialised to `RAY`). -/
  index : Nat
  /-- `mapping(address => uint256) public deposits`. -/
  deposits : Address → Nat
  /-- `mapping(address => uint256) public scaledDeposits`. -/
  scaledDeposits : Address → Nat
  /-- `mapping(address => uint256) public nonces`. -/
  nonces : Address → Nat
  /-- State of the `dusd` ERC20 token. -/
  dusd : ERC20State

/-- The constructor: `index` is initialised to `RAY`, `lastUpdate` to
`block.timestamp`, every mapping empty. -/
def initState (rate now : Nat) (token : ERC20State) : PoolState :=
  { ratePerSecond := rate
    lastUpdate := now
    index := RAY
    deposits := fun _ => 0
    scaledDeposits := fun _ => 0
    nonces := fun _ => 0
    dusd := token }

/-- `function accrue() public`: `timePassed = block.timestamp - lastUpdate`;
if positive, `index += timePassed * ratePerSecond / RAY` and
`lastUpdate = block.timestamp`; otherwise no state change. -/
def accrue (s : PoolState) (now : Nat) : Except EvmError PoolState :=
  match csub now s.lastUpdate with
  | .error e => .error e
  | .ok timePassed =>
    if timePassed > 0 then
      match cmul timePassed s.ratePerSecond with
      | .error e => .error e
      | .ok p =>
        match cadd s.index (p / RAY) with
        | .error e => .error e
        | .ok newIndex => .ok { s with index := newIndex, lastUpdate := now }
    else .ok s

/-- The body shared by `deposit` and `executeDeposit`: `accrue()`;
`dusd.safeTransferFrom(msg.sender, address(this), amount)`;
`scaledAmount = amount * RAY / index`; `scaledDeposits[msg.sender] +=
scaledAmount`; `deposits[msg.sender] += amount`. -/
def depositCore (s : PoolState) (now sender amount : Nat) : Except EvmError PoolState :=
  match accrue s now with
  | .error e => .error e
  | .ok s1 =>
    match erc20TransferFrom s1.dusd poolAddr sender poolAddr amount with
    | .error e => .error e
    | .ok d =>
      match cmul amount RAY with
      | .error e => .error e
      | .ok p =>
        match cdiv p s1.index with
        | .error e => .error e
        | .ok scaledAmount =>
          match cadd (s1.scaledDeposits sender) scaledAmount with
          | .error e => .error e
          | .ok sc =>
            match cadd (s1.deposits sender) amount with
            | .error e => .error e
            | .ok dep =>
              .ok { s1 with
                dusd := d
                scaledDeposits := upd s1.scaledDeposits sender sc
                deposits := upd s1.deposits sender dep }

/-- `function deposit(uint256 amount) public`. -/
def deposit (s : PoolState) (now sender amount : Nat) : Except EvmError PoolState :=
  depositCore s now sender amount

/-- The body shared by `withdraw` and `executeWithdraw`: `accrue()`;
`require(deposits[msg.sender] >= amount)`; `scaledAmount = amount * RAY /
index`; `scaledDeposits[msg.sender] -= scaledAmount`;
`deposits[msg.sender] -= amount`; `dusd.safeTransfer(msg.sender, amount)`. -/
def withdrawCore (s : PoolState) (now sender amount : Nat) : Except EvmError PoolState :=
  match accrue s now with
  | .error e => .error e
  | .ok s1 =>
    if s1.deposits sender < amount then .error .insufficientBalance
    else
      match cmul amount RAY with
      | .error e => .error e
      | .ok p =>
        match cdiv p s1.index with
        | .error e => .error e
        | .ok scaledAmount =>
          match csub (s1.scaledDeposits sender) scaledAmount with
          | .error e => .error e
          | .ok sc =>
            match csub (s1.deposits sender) amount with
            | .error e => .error e
            | .ok dep =>
              match erc20Transfer s1.dusd poolAddr sender amount with
              | .error e => .error e
              | .ok d =>
                .ok { s1 with
                  dusd := d
                  scaledDeposits := upd s1.scaledDeposits sender sc
                  deposits := upd s1.deposits sender dep }

/-- `function withdraw(uint256 amount) public`. -/
def withdraw (s : PoolState) (now sender amount : Nat) : Except EvmError PoolState :=
  withdrawCore s now sender amount

/-- `function previewBalance(address user) public view`: recomputes the index
`accrue()` would produce at `now` without mutating state (the return type
carries no state, mirroring `view`), then returns
`scaledDeposits[user] * currentIndex / RAY`.  All arithmetic is checked as
in the source. -/
def previewBalance (s : PoolState) (now user : Nat) : Except EvmError Nat :=
  match csub now s.lastUpdate with
  | .error e => .error e
  | .ok timePassed =>
    let ciE : Except EvmError Nat :=
      if timePassed > 0 then
        match cmul timePassed s.ratePerSecond with
        | .error e => .error e
        | .ok p => cadd s.index (p / RAY)
      else .ok s.index
    match ciE with
    | .error e => .error e
    | .ok currentIndex =>
      match cmul (s.scaledDeposits user) currentIndex with
      | .error e => .error e
      | .ok q => .ok (q / RAY)

/-! ## Delegated actions (EIP-712 structs) and entry points -/

/-- `struct DepositAction { uint256 amount; uint256 nonce; uint256 deadline; }` -/
structure DepositAction where
  amount : Nat
  nonce : Nat
  deadline : Nat
  deriving DecidableEq, Repr

/-- `struct WithdrawAction { uint256 amount; uint256 nonce; uint256 deadline; }` -/
structure WithdrawAction where
  amount : Nat
  nonce : Nat
  deadline : Nat
  deriving DecidableEq, Repr

/-- `struct MintRWAAction` with its nine fields (the Solidity field `to` is
spelled `dst` here). -/
structure MintRWAAction where
  dst : Address
  amount : Nat
  ipfsCid : String
  name : String
  description : String
  valuation : Nat
  merkleRoot : Nat
  nonce : Nat
  deadline : Nat
  deriving DecidableEq, Repr

/-- `struct TransferRWAAction { address to; uint256 amount; uint256 nonce;
uint256 deadline; }` (the Solidity field `to` is spelled `dst` here). -/
structure TransferRWAAction where
  dst : Address
  amount : Nat
  nonce : Nat
  deadline : Nat
  deriving DecidableEq, Repr

/-- `struct BurnRWAAction { address from; uint256 amount; uint256 nonce; uint256 deadline; }` -/
structure BurnRWAAction where
  src : Address
  amount : Nat
  nonce : Nat
  deadline : Nat
  deriving DecidableEq, Repr

/-- The tagged union of the five delegated action types.  An `Action` value
doubles as the EIP-712 digest of the action: the typehash makes digests of
distinct action types distinct, and the struct encoding under a
collision-free hash makes digests of distinct field values distinct, so the
digest is faithfully modelled by the type-tagged action value itself. -/
inductive Action where
  | depositA (a : DepositAction)
  | withdrawA (a : WithdrawAction)
  | mintA (a : MintRWAAction)
  | transferA (a : TransferRWAAction)
  | burnA (a : BurnRWAAction)
  deriving DecidableEq, Repr

/-- The universal `nonce` field of an action. -/
def Action.nonce : Action → Nat
  | .depositA a => a.nonce
  | .withdrawA a => a.nonce
  | .mintA a => a.nonce
  | .transferA a => a.nonce
  | .burnA a => a.nonce

/-- The universal `deadline` field of an action. -/
def Action.deadline : Action → Nat
  | .depositA a => a.deadline
  | .withdrawA a => a.deadline
  | .mintA a => a.deadline
  | .transferA a => a.deadline
  | .burnA a => a.deadline

/-- `ECDSA.recover` over the EIP-712 digest, as an abstract function from
digest and signature bytes to the recovered address. -/
abbrev Recover := Action → String → Address

/-- `function executeDeposit(DepositAction calldata action, bytes calldata
signature) external`: deadline check, nonce check, signature recovery and
check against `msg.sender`, `nonces[msg.sender]++`, then the deposit body. -/
def executeDeposit (recover : Recover) (s : PoolState) (now sender : Nat)
    (action : DepositAction) (sig : String) : Except EvmError PoolState :=
  if ¬ now ≤ action.deadline then .error .signatureExpired
  else if ¬ action.nonce = s.nonces sender then .error .invalidNonce
  else if ¬ recover (.depositA action) sig = sender then .error .invalidSignature
  else
    match cadd (s.nonces sender) 1 with
    | .error e => .error e
    | .ok n => depositCore { s with nonces := upd s.nonces sender n } now sender action.amount

/-- `function executeWithdraw(WithdrawAction calldata action, bytes calldata
signature) external`. -/
def executeWithdraw (recover : Recover) (s : PoolState) (now sender : Nat)
    (action : WithdrawAction) (sig : String) : Except EvmError PoolState :=
  if ¬ now ≤ action.deadline then .error .signatureExpired
  else if ¬ action.nonce = s.nonces sender then .error .invalidNonce
  else if ¬ recover (.withdrawA action) sig = sender then .error .invalidSignature
  else
    match cadd (s.nonces sender) 1 with
    | .error e => .error e
    | .ok n => withdrawCore { s with nonces := upd s.nonces sender n } now sender action.amount

/-- `function executeMintRWA(...) external`: after the three envelope checks
and the nonce increment, the contract performs a low-level call into the RWA
token and reverts if it fails; the outcome of that external call is the
parameter `extOk` (the RWA token's own state is outside the pool's storage
and is not tracked here). -/
def executeMintRWA (recover : Recover) (extOk : Bool) (s : PoolState) (now sender : Nat)
    (action : MintRWAAction) (sig : String) : Except EvmError PoolState :=
  if ¬ now ≤ action.deadline then .error .signatureExpired
  else if ¬ action.nonce = s.nonces sender then .error .invalidNonce
  else if ¬ recover (.mintA action) sig = sender then .error .invalidSignature
  else
    match cadd (s.nonces sender) 1 with
    | .error e => .error e
    | .ok n =>
      if extOk then .ok { s with nonces := upd s.nonces sender n }
      else .error .externalCallFailed

/-- `function executeTransferRWA(...) external` (same shape as the mint). -/
def executeTransferRWA (recover : Recover) (extOk : Bool) (s : PoolState) (now sender : Nat)
    (action : TransferRWAAction) (sig : String) : Except EvmError PoolState :=
  if ¬ now ≤ action.deadline then .error .signatureExpired
  else if ¬ action.nonce = s.nonces sender then .error .invalidNonce
  else if ¬ recover (.transferA action) sig = sender then .error .invalidSignature
  else
    match cadd (s.nonces sender) 1 with
    | .error e => .error e
    | .ok n =>
      if extOk then .ok { s with nonces := upd s.nonces sender n }
      else .error .externalCallFailed

/-- `function executeBurnRWA(...) external` (same shape as the mint). -/
def executeBurnRWA (recover : Recover) (extOk : Bool) (s : PoolState) (now sender : Nat)
    (action : BurnRWAAction) (sig : String) : Except EvmError PoolState :=
  if ¬ now ≤ action.deadline then .error .signatureExpired
  else if ¬ action.nonce = s.nonces sender then .error .invalidNonce
  else if ¬ recover (.burnA action) sig = sender then .error .invalidSignature
  else
    match cadd (s.nonces sender) 1 with
    | .error e => .error e
    | .ok n =>
      if extOk then .ok { s with nonces := upd s.nonces sender n }
      else .error .externalCallFailed

/-- Dispatch over the five delegated entry points, for statements that
quantify over all of them. -/
def execute (recover : Recover) (extOk : Bool) (s : PoolState) (now sender : Nat)
    (act : Action) (sig : String) : Except EvmError PoolState :=
  match act with
  | .depositA a => executeDeposit recover s now sender a sig
  | .withdrawA a => executeWithdraw recover s now sender a sig
  | .mintA a => executeMintRWA recover extOk s now sender a sig
  | .transferA a => executeTransferRWA recover extOk s now sender a sig
  | .burnA a => executeBurnRWA recover extOk s now sender a sig

/-! ## Sequences of public operations (for the index invariant) -/

/-- A public mutating or view operation of the pool contract. -/
inductive Op where
  | accrueOp
  | depositOp (amount : Nat)
  | withdrawOp (amount : Nat)
  | executeOp (act : Action)
  /-- `previewBalance` is a `view` function: it never mutates state. -/
  | previewOp (user : Address)
  deriving Repr

/-- One invocation of a public operation: the operation, the block timestamp,
the transaction sender, the signature bytes (used only by `executeOp`), and
the outcome of an external RWA-token call (used only by the RWA actions). -/
structure OpCall where
  op : Op
  now : Nat
  sender : Address
  sig : String
  extOk : Bool

/-- The state transition made by one invocation (a revert keeps no state). -/
def stepOp (recover : Recover) (s : PoolState) (c : OpCall) : Except EvmError PoolState :=
  match c.op with
  | .accrueOp => accrue s c.now
  | .depositOp amount => deposit s c.now c.sender amount
  | .withdrawOp amount => withdraw s c.now c.sender amount
  | .executeOp act => execute recover c.extOk s c.now c.sender act c.sig
  | .previewOp _ => .ok s

/-- A reverted transaction leaves the chain state unchanged. -/
def applyOp (recover : Recover) (s : PoolState) (c : OpCall) : PoolState :=
  match stepOp recover s c with
  | .ok s1 => s1
  | .error _ => s

/-- Run a sequence of public operations left to right. -/
def runOps (recover : Recover) : PoolState → List OpCall → PoolState
  | s, [] => s
  | s, c :: cs => runOps recover (applyOp recover s c) cs

/-! ## Relay gateway (`POST /api/deposit` of the two relayer servers)

The JSON body fields arrive as arbitrary JSON values; the handlers test
presence/truthiness (`!field`), then `typeof field === 'string'`.  The
external `ethers`/JavaScript number functions are abstract parameters:
`parseEther` (throws on a malformed decimal string — modelled as `none`),
`parseInt` (yields `NaN` on a non-numeric prefix — modelled as `none`, and
every comparison with `NaN` is false), and `BigInt` (throws — `none`).
The gateway's clock (`Math.floor(Date.now() / 1000)`) and the chain's
`block.timestamp` are identified as the single submission time `now`. -/

/-- A JSON field of the request body: a string, or a present non-string value
of which only JavaScript truthiness matters to the handler. -/
inductive ReqField where
  | strF (s : String)
  | nonStrF (truthy : Bool)
  deriving DecidableEq, Repr

/-- JavaScript truthiness of an optional field (`undefined` and the empty
string are falsy). -/
def fieldTruthy : Option ReqField → Bool
  | none => false
  | some (.strF s) => !s.isEmpty
  | some (.nonStrF t) => t

/-- Whether `typeof field === 'string'`. -/
def fieldIsString : Option ReqField → Bool
  | some (.strF _) => true
  | _ => false

/-- The string content of a field (only used after `fieldIsString`). -/
def fieldStr : Option ReqField → String
  | some (.strF s) => s
  | _ => ""

/-- Body of a `POST /api/deposit` request. -/
structure DepositRequest where
  amount : Option ReqField
  nonce : Option ReqField
  deadline : Option ReqField
  signature : Option ReqField

/-- The external JavaScript / ethers number-parsing functions used by the
handlers, as abstract parameters (`none` models a throw or `NaN`). -/
structure JsLib where
  parseEther : String → Option Int
  parseIntF : String → Option Int
  toBigInt : String → Option Int

/-- JavaScript `x <= b` where `x` may be `NaN` (every `NaN` comparison is
false). -/
def jsLE (x : Option Int) (b : Int) : Bool :=
  match x with
  | none => false
  | some a => a ≤ b

/-- JavaScript `x > b` where `x` may be `NaN`. -/
def jsGT (x : Option Int) (b : Int) : Bool :=
  match x with
  | none => false
  | some a => b < a

/-- Outcome of a handler's pre-validation phase: an early response returned
without ever contacting the contract, or the converted action forwarded to
`executeDeposit`. -/
inductive GwPre where
  | reject (status : Nat) (errorMsg : String) (code : Option String)
  | forward (action : DepositAction) (sig : String)

/-- An HTTP response of a handler, reduced to the observables the spec talks
about: status, the `success` flag, the `error` message and the
machine-readable `code` field (absent on the basic server). -/
structure GwResponse where
  status : Nat
  success : Bool
  errorMsg : Option String
  code : Option String
  deriving DecidableEq, Repr

/-- Pre-validation of the basic relayer's `POST /api/deposit` (the server
whose responses carry no `code` field): presence, types, `parseEther`
amount positivity, deadline-in-future and deadline-window checks, then the
`BigInt` conversions; a thrown conversion or an ABI-range failure lands in
the catch-all 500 `Transaction failed` response. -/
def basicDepositPre (lib : JsLib) (now : Nat) (req : DepositRequest) : GwPre :=
  if !(fieldTruthy req.amount && fieldTruthy req.nonce &&
       fieldTruthy req.deadline && fieldTruthy req.signature) then
    .reject 400 "Missing required fields" none
  else if !(fieldIsString req.amount && fieldIsString req.nonce &&
            fieldIsString req.deadline && fieldIsString req.signature) then
    .reject 400 "Invalid input types" none
  else
    match lib.parseEther (fieldStr req.amount) with
    | none => .reject 500 "Transaction failed" none
    | some v =>
      if v ≤ 0 then .reject 400 "Amount must be greater than 0" none
      else if jsLE (lib.parseIntF (fieldStr req.deadline)) now then
        .reject 400 "Signature has expired" none
      else if jsGT (lib.parseIntF (fieldStr req.deadline)) ((now : Int) + 3600) then
        .reject 400 "Deadline too far in future" none
      else
        match lib.toBigInt (fieldStr req.nonce), lib.toBigInt (fieldStr req.deadline) with
        | some nv, some dv =>
          if 0 ≤ nv ∧ nv < (U256 : Int) ∧ 0 ≤ dv ∧ dv < (U256 : Int) ∧ v < (U256 : Int) then
            .forward ⟨v.toNat, nv.toNat, dv.toNat⟩ (fieldStr req.signature)
          else .reject 500 "Transaction failed" none
        | _, _ => .reject 500 "Transaction failed" none

/-- `ethers.parseEther('100')`, the multi-signature threshold of the secure
relayer. -/
def multiSigThreshold : Int := 100 * 10 ^ 18

/-- `checkMultiSigRequirement(amount)` of the secure relayer:
`amount >= threshold`. -/
def checkMultiSigRequirement (amount : Int) : Bool :=
  multiSigThreshold ≤ amount

/-- Pre-validation of the secure relayer's `POST /api/deposit` (the server
whose responses carry a `code` field): identical to the basic one plus the
multi-signature threshold check between the amount and deadline checks. -/
def secureDepositPre (lib : JsLib) (now : Nat) (req : DepositRequest) : GwPre :=
  if !(fieldTruthy req.amount && fieldTruthy req.nonce &&
       fieldTruthy req.deadline && fieldTruthy req.signature) then
    .reject 400 "Missing required fields" (some "MISSING_FIELDS")
  else if !(fieldIsString req.amount && fieldIsString req.nonce &&
            fieldIsString req.deadline && fieldIsString req.signature) then
    .reject 400 "Invalid input types" (some "INVALID_TYPES")
  else
    match lib.parseEther (fieldStr req.amount) with
    | none => .reject 500 "Transaction failed" (some "TRANSACTION_FAILED")
    | some v =>
      if v ≤ 0 then .reject 400 "Amount must be greater than 0" (some "INVALID_AMOUNT")
      else if checkMultiSigRequirement v then
        .reject 400 "Large transaction requires multi-signature approval"
          (some "MULTI_SIG_REQUIRED")
      else if jsLE (lib.parseIntF (fieldStr req.deadline)) now then
        .reject 400 "Signature has expired" (some "SIGNATURE_EXPIRED")
      else if jsGT (lib.parseIntF (fieldStr req.deadline)) ((now : Int) + 3600) then
        .reject 400 "Deadline too far in future" (some "DEADLINE_TOO_FAR")
      else
        match lib.toBigInt (fieldStr req.nonce), lib.toBigInt (fieldStr req.deadline) with
        | some nv, some dv =>
          if 0 ≤ nv ∧ nv < (U256 : Int) ∧ 0 ≤ dv ∧ dv < (U256 : Int) ∧ v < (U256 : Int) then
            .forward ⟨v.toNat, nv.toNat, dv.toNat⟩ (fieldStr req.signature)
          else .reject 500 "Transaction failed" (some "TRANSACTION_FAILED")
        | _, _ => .reject 500 "Transaction failed" (some "TRANSACTION_FAILED")

/-- The basic relayer's catch-block mapping from a revert reason of the
contract call to the HTTP response (`error.message.includes(...)` chains;
no `code` field on this server). -/
def basicMapChainError (e : EvmError) : GwResponse :=
  match e with
  | .invalidNonce => ⟨400, false, some "Invalid nonce - possible replay attack", none⟩
  | .invalidSignature => ⟨400, false, some "Invalid signature", none⟩
  | .signatureExpired => ⟨400, false, some "Signature has expired", none⟩
  | _ => ⟨500, false, some "Transaction failed", none⟩

/-- The secure relayer's catch-block mapping (same chain, with `code`s; the
catch-all carries `TRANSACTION_FAILED`). -/
def secureMapChainError (e : EvmError) : GwResponse :=
  match e with
  | .invalidNonce => ⟨400, false, some "Invalid nonce - possible replay attack",
      some "INVALID_NONCE"⟩
  | .invalidSignature => ⟨400, false, some "Invalid signature", some "INVALID_SIGNATURE"⟩
  | .signatureExpired => ⟨400, false, some "Signature has expired", some "SIGNATURE_EXPIRED"⟩
  | _ => ⟨500, false, some "Transaction failed", some "TRANSACTION_FAILED"⟩

/-- The complete basic `POST /api/deposit` endpoint: pre-validation, then the
contract call `lendingPool.executeDeposit(action, signature)` submitted by
the relay's own wallet (`msg.sender = relayer`). -/
def basicDepositEndpoint (lib : JsLib) (recover : Recover) (relayer : Address)
    (now : Nat) (pool : PoolState) (req : DepositRequest) : GwResponse × PoolState :=
  match basicDepositPre lib now req with
  | .reject st er cd => (⟨st, false, some er, cd⟩, pool)
  | .forward action sg =>
    match executeDeposit recover pool now relayer action sg with
    | .ok pool1 => (⟨200, true, none, none⟩, pool1)
    | .error e => (basicMapChainError e, pool)

/-- The complete secure `POST /api/deposit` endpoint. -/
def secureDepositEndpoint (lib : JsLib) (recover : Recover) (relayer : Address)
    (now : Nat) (pool : PoolState) (req : DepositRequest) : GwResponse × PoolState :=
  match secureDepositPre lib now req with
  | .reject st er cd => (⟨st, false, some er, cd⟩, pool)
  | .forward action sg =>
    match executeDeposit recover pool now relayer action sg with
    | .ok pool1 => (⟨200, true, none, none⟩, pool1)
    | .error e => (secureMapChainError e, pool)

/-! ## Observation helpers for concrete evaluations -/

/-- The revert reason of a failed call, if any. -/
def errOf (r : Except EvmError PoolState) : Option EvmError :=
  match r with
  | .ok _ => none
  | .error e => some e

/-- Observe a numeric component of the post-state of a successful call
(`none` when the call reverted). -/
def obs (r : Except EvmError PoolState) (f : PoolState → Nat) : Option Nat :=
  match r with
  | .ok s => some (f s)
  | .error _ => none

/-! ## Inversion lemmas for the checked arithmetic -/

theorem cadd_ok {a b c : Nat} (h : cadd a b = .ok c) : c = a + b ∧ a + b < U256 := by
  unfold cadd at h
  split_ifs at h with h1
  · cases h; exact ⟨rfl, h1⟩

theorem csub_ok {a b c : Nat} (h : csub a b = .ok c) : c = a - b ∧ b ≤ a := by
  unfold csub at h
  split_ifs at h with h1
  · cases h; exact ⟨rfl, h1⟩

theorem cmul_ok {a b c : Nat} (h : cmul a b = .ok c) : c = a * b ∧ a * b < U256 := by
  unfold cmul at h
  split_ifs at h with h1
  · cases h; exact ⟨rfl, h1⟩

theorem cdiv_ok {a b c : Nat} (h : cdiv a b = .ok c) : c = a / b ∧ b ≠ 0 := by
  unfold cdiv at h
  split_ifs at h with h1
  · cases h; exact ⟨rfl, h1⟩

/-! ## Characterisation lemmas for `accrue` -/

/-- `accrue` written as nested conditionals: underflow of the elapsed time,
the zero-elapsed no-op branch, and the two checked-arithmetic bounds. -/
theorem accrue_def (s : PoolState) (now : Nat) :
    accrue s now =
      if s.lastUpdate ≤ now then
        if 0 < now - s.lastUpdate then
          if (now - s.lastUpdate) * s.ratePerSecond < U256 then
            if s.index + (now - s.lastUpdate) * s.ratePerSecond / RAY < U256 then
              .ok { s with index := s.index + (now - s.lastUpdate) * s.ratePerSecond / RAY,
                            lastUpdate := now }
            else .error .arithmeticOverflow
          else .error .arithmeticOverflow
        else .ok s
      else .error .arithmeticOverflow := by
  unfold accrue csub cmul cadd
  split_ifs with h1 h2 h3 h4
  · have h2' : s.lastUpdate < now := by omega
    simp [h2', h3, h4]
  · have h2' : s.lastUpdate < now := by omega
    simp [h2', h3, h4]
  · have h2' : s.lastUpdate < now := by omega
    simp [h2', h3]
  · have h2' : ¬ s.lastUpdate < now := by omega
    simp [h2']
  · simp [h1]

theorem accrue_ok_inv {s s1 : PoolState} {now : Nat}
    (h : accrue s now = .ok s1) :
    s1.index = s.index + (now - s.lastUpdate) * s.ratePerSecond / RAY ∧
    s1.lastUpdate = now ∧
    s1.ratePerSecond = s.ratePerSecond ∧
    s1.deposits = s.deposits ∧
    s1.scaledDeposits = s.scaledDeposits ∧
    s1.nonces = s.nonces ∧
    s1.dusd = s.dusd ∧
    s.lastUpdate ≤ now := by
  rw [accrue_def] at h
  split_ifs at h with h1 h2 h3 h4
  · cases h
    exact ⟨rfl, rfl, rfl, rfl, rfl, rfl, rfl, h1⟩
  · cases h
    have hz : now = s.lastUpdate := by omega
    refine ⟨?_, ?_, rfl, rfl, rfl, rfl, rfl, h1⟩
    · simp [hz]
    · omega

/-- Calling `accrue` again in the same instant is a no-op. -/
theorem accrue_noop {s : PoolState} {now : Nat} (h : s.lastUpdate = now) :
    accrue s now = .ok s := by
  rw [accrue_def]
  rw [if_pos (by omega), if_neg (by omega)]

theorem accrue_index_mono {s s1 : PoolState} {now : Nat}
    (h : accrue s now = .ok s1) : s.index ≤ s1.index := by
  rw [(accrue_ok_inv h).1]
  exact Nat.le_add_right _ _


/-! ## Characterisation lemmas for the ERC20 model -/

theorem erc20Transfer_ok_inv {t t1 : ERC20State} {src dst amount : Nat}
    (h : erc20Transfer t src dst amount = .ok t1) :
    t1.allowances = t.allowances ∧ amount ≤ t.balances src ∧
    t1.balances = upd (upd t.balances src (t.balances src - amount)) dst
      ((upd t.balances src (t.balances src - amount) dst + amount) % U256) := by
  unfold erc20Transfer at h
  split_ifs at h with h1
  · cases h
    exact ⟨rfl, by omega, rfl⟩

theorem erc20Transfer_eq_ok {t : ERC20State} {src dst amount : Nat}
    (h : amount ≤ t.balances src) :
    erc20Transfer t src dst amount = .ok { t with balances :=
      (upd (upd t.balances src (t.balances src - amount)) dst
        ((upd t.balances src (t.balances src - amount) dst + amount) % U256)) } := by
  unfold erc20Transfer
  rw [if_neg (by omega)]

theorem erc20SpendAllowance_ok_inv {t t1 : ERC20State} {owner spender amount : Nat}
    (h : erc20SpendAllowance t owner spender amount = .ok t1) :
    t1.balances = t.balances ∧
    (∀ o sp, o ≠ owner → t1.allowances o sp = t.allowances o sp) := by
  unfold erc20SpendAllowance at h
  split_ifs at h with h1 h2
  · cases h
    refine ⟨rfl, ?_⟩
    intro o sp ho
    simp [ho]
  · cases h
    exact ⟨rfl, fun _ _ _ => rfl⟩

theorem erc20TransferFrom_ok_inv {t t1 : ERC20State} {spender src dst amount : Nat}
    (h : erc20TransferFrom t spender src dst amount = .ok t1) :
    amount ≤ t.balances src ∧
    t1.balances = upd (upd t.balances src (t.balances src - amount)) dst
      ((upd t.balances src (t.balances src - amount) dst + amount) % U256) := by
  unfold erc20TransferFrom at h
  split at h
  · simp at h
  · rename_i ta heq
    have hs := erc20SpendAllowance_ok_inv heq
    have ht := erc20Transfer_ok_inv h
    rw [hs.1] at ht
    exact ⟨ht.2.1, ht.2.2⟩

theorem erc20SpendAllowance_zero (t : ERC20State) (owner spender : Nat) :
    ∃ t1, erc20SpendAllowance t owner spender 0 = .ok t1 ∧
      t1.balances = t.balances ∧
      (∀ o sp, t1.allowances o sp = t.allowances o sp) := by
  unfold erc20SpendAllowance
  split_ifs with h1 h2
  · exact absurd h2 (Nat.not_lt_zero _)
  · refine ⟨_, rfl, rfl, ?_⟩
    intro o sp
    dsimp only
    split_ifs with h3
    · obtain ⟨rfl, rfl⟩ := h3
      simp
    · rfl
  · exact ⟨t, rfl, rfl, fun _ _ => rfl⟩


/-! ## Characterisation lemmas for the deposit / withdraw bodies -/

theorem depositCore_ok_inv {s s2 : PoolState} {now sender amount : Nat}
    (h : depositCore s now sender amount = .ok s2) :
    ∃ s1, accrue s now = .ok s1 ∧
      s2.index = s1.index ∧
      s2.lastUpdate = s1.lastUpdate ∧
      s2.ratePerSecond = s.ratePerSecond ∧
      s2.nonces = s.nonces ∧
      s2.deposits = upd s.deposits sender (s.deposits sender + amount) ∧
      s2.scaledDeposits = upd s.scaledDeposits sender
        (s.scaledDeposits sender + amount * RAY / s1.index) ∧
      erc20TransferFrom s.dusd poolAddr sender poolAddr amount = .ok s2.dusd ∧
      amount * RAY < U256 ∧ 0 < s1.index ∧
      s.deposits sender + amount < U256 ∧
      s.scaledDeposits sender + amount * RAY / s1.index < U256 := by
  unfold depositCore at h
  split at h
  · simp at h
  · rename_i s1 heqA
    obtain ⟨hidx, hlu, hrate, hdep, hsc, hnon, hdusd, hle⟩ := accrue_ok_inv heqA
    split at h
    · simp at h
    · rename_i d heqT
      split at h
      · simp at h
      · rename_i p heqM
        obtain ⟨rfl, hpb⟩ := cmul_ok heqM
        split at h
        · simp at h
        · rename_i sa heqD
          obtain ⟨rfl, hnz⟩ := cdiv_ok heqD
          split at h
          · simp at h
          · rename_i sc heqS
            obtain ⟨rfl, hscb⟩ := cadd_ok heqS
            split at h
            · simp at h
            · rename_i dep heqDep
              obtain ⟨rfl, hdepb⟩ := cadd_ok heqDep
              cases h
              refine ⟨s1, heqA, rfl, rfl, hrate, hnon, ?_, ?_, ?_, hpb, ?_, ?_, ?_⟩
              · rw [hdep]
              · rw [hsc]
              · rw [hdusd] at heqT
                exact heqT
              · omega
              · rw [hdep] at hdepb
                exact hdepb
              · rw [hsc] at hscb
                exact hscb

theorem withdrawCore_ok_inv {s s2 : PoolState} {now sender amount : Nat}
    (h : withdrawCore s now sender amount = .ok s2) :
    ∃ s1, accrue s now = .ok s1 ∧
      s2.index = s1.index ∧
      s2.lastUpdate = s1.lastUpdate ∧
      s2.ratePerSecond = s.ratePerSecond ∧
      s2.nonces = s.nonces ∧
      amount ≤ s.deposits sender ∧
      s2.deposits = upd s.deposits sender (s.deposits sender - amount) ∧
      s2.scaledDeposits = upd s.scaledDeposits sender
        (s.scaledDeposits sender - amount * RAY / s1.index) ∧
      amount * RAY / s1.index ≤ s.scaledDeposits sender ∧
      erc20Transfer s.dusd poolAddr sender amount = .ok s2.dusd ∧
      amount * RAY < U256 ∧ 0 < s1.index := by
  unfold withdrawCore at h
  split at h
  · simp at h
  · rename_i s1 heqA
    obtain ⟨hidx, hlu, hrate, hdep, hsc, hnon, hdusd, hle⟩ := accrue_ok_inv heqA
    split_ifs at h with hbal
    split at h
    · simp at h
    · rename_i p heqM
      obtain ⟨rfl, hpb⟩ := cmul_ok heqM
      split at h
      · simp at h
      · rename_i sa heqD
        obtain ⟨rfl, hnz⟩ := cdiv_ok heqD
        split at h
        · simp at h
        · rename_i sc heqS
          obtain ⟨rfl, hscb⟩ := csub_ok heqS
          split at h
          · simp at h
          · rename_i dep heqDep
            obtain ⟨rfl, hdepb⟩ := csub_ok heqDep
            split at h
            · simp at h
            · rename_i d heqT
              cases h
              refine ⟨s1, heqA, rfl, rfl, hrate, hnon, ?_, ?_, ?_, ?_, ?_, hpb, ?_⟩
              · rw [hdep] at hbal
                omega
              · rw [hdep]
              · rw [hsc]
              · rw [hsc] at hscb
                exact hscb
              · rw [hdusd] at heqT
                exact heqT
              · omega


theorem depositCore_eq_ok {s s1 : PoolState} {now sender amount : Nat} {d : ERC20State}
    (ha : accrue s now = .ok s1)
    (ht : erc20TransferFrom s1.dusd poolAddr sender poolAddr amount = .ok d)
    (hm : amount * RAY < U256)
    (hnz : 0 < s1.index)
    (hsc : s1.scaledDeposits sender + amount * RAY / s1.index < U256)
    (hdep : s1.deposits sender + amount < U256) :
    depositCore s now sender amount = .ok { s1 with
      dusd := d
      scaledDeposits := upd s1.scaledDeposits sender
        (s1.scaledDeposits sender + amount * RAY / s1.index)
      deposits := upd s1.deposits sender (s1.deposits sender + amount) } := by
  unfold depositCore
  rw [ha]
  dsimp only
  rw [ht]
  dsimp only
  unfold cmul cdiv cadd
  rw [if_pos hm]
  dsimp only
  rw [if_neg (by omega)]
  dsimp only
  rw [if_pos hsc]
  dsimp only
  rw [if_pos hdep]

theorem withdrawCore_eq_ok {s s1 : PoolState} {now sender amount : Nat} {d : ERC20State}
    (ha : accrue s now = .ok s1)
    (hbal : amount ≤ s1.deposits sender)
    (hm : amount * RAY < U256)
    (hnz : 0 < s1.index)
    (hscb : amount * RAY / s1.index ≤ s1.scaledDeposits sender)
    (ht : erc20Transfer s1.dusd poolAddr sender amount = .ok d) :
    withdrawCore s now sender amount = .ok { s1 with
      dusd := d
      scaledDeposits := upd s1.scaledDeposits sender
        (s1.scaledDeposits sender - amount * RAY / s1.index)
      deposits := upd s1.deposits sender (s1.deposits sender - amount) } := by
  unfold withdrawCore
  rw [ha]
  dsimp only
  rw [if_neg (by omega)]
  unfold cmul cdiv csub
  rw [if_pos hm]
  dsimp only
  rw [if_neg (by omega)]
  dsimp only
  rw [if_pos hscb]
  dsimp only
  rw [if_pos hbal]
  dsimp only
  rw [ht]


/-! ## Characterisation lemmas for the delegated entry points -/

theorem executeDeposit_ok_inv {recover : Recover} {s s2 : PoolState}
    {now sender : Nat} {a : DepositAction} {sig : String}
    (h : executeDeposit recover s now sender a sig = .ok s2) :
    now ≤ a.deadline ∧
    a.nonce = s.nonces sender ∧
    recover (.depositA a) sig = sender ∧
    s.nonces sender + 1 < U256 ∧
    s2.nonces = upd s.nonces sender (s.nonces sender + 1) ∧
    s2.index = s.index + (now - s.lastUpdate) * s.ratePerSecond / RAY ∧
    s2.lastUpdate = now ∧
    s2.ratePerSecond = s.ratePerSecond ∧
    s2.deposits = upd s.deposits sender (s.deposits sender + a.amount) ∧
    s2.scaledDeposits = upd s.scaledDeposits sender
      (s.scaledDeposits sender + a.amount * RAY / s2.index) ∧
    erc20TransferFrom s.dusd poolAddr sender poolAddr a.amount = .ok s2.dusd ∧
    s.lastUpdate ≤ now := by
  unfold executeDeposit at h
  split_ifs at h with h1 h2 h3
  push_neg at h1 h2 h3
  split at h
  · simp at h
  · rename_i n heqN
    obtain ⟨rfl, hnb⟩ := cadd_ok heqN
    obtain ⟨s1, heqA, hidx, hlu, hrate, hnon, hdep, hsc, ht, hmb, hnz, hdb, hscb⟩ :=
      depositCore_ok_inv h
    obtain ⟨hidx1, hlu1, hrate1, hdep1, hsc1, hnon1, hdusd1, hle1⟩ := accrue_ok_inv heqA
    refine ⟨h1, h2, h3, hnb, ?_, ?_, ?_, ?_, ?_, ?_, ?_, hle1⟩
    · rw [hnon]
    · rw [hidx, hidx1]
    · rw [hlu, hlu1]
    · rw [hrate]
    · exact hdep
    · rw [hsc, hidx, hidx1]
    · exact ht


theorem executeWithdraw_ok_inv {recover : Recover} {s s2 : PoolState}
    {now sender : Nat} {a : WithdrawAction} {sig : String}
    (h : executeWithdraw recover s now sender a sig = .ok s2) :
    now ≤ a.deadline ∧
    a.nonce = s.nonces sender ∧
    recover (.withdrawA a) sig = sender ∧
    s.nonces sender + 1 < U256 ∧
    s2.nonces = upd s.nonces sender (s.nonces sender + 1) ∧
    s2.index = s.index + (now - s.lastUpdate) * s.ratePerSecond / RAY ∧
    s2.lastUpdate = now ∧
    s2.ratePerSecond = s.ratePerSecond ∧
    a.amount ≤ s.deposits sender ∧
    s2.deposits = upd s.deposits sender (s.deposits sender - a.amount) ∧
    s2.scaledDeposits = upd s.scaledDeposits sender
      (s.scaledDeposits sender - a.amount * RAY / s2.index) ∧
    erc20Transfer s.dusd poolAddr sender a.amount = .ok s2.dusd ∧
    s.lastUpdate ≤ now := by
  unfold executeWithdraw at h
  split_ifs at h with h1 h2 h3
  push_neg at h1 h2 h3
  split at h
  · simp at h
  · rename_i n heqN
    obtain ⟨rfl, hnb⟩ := cadd_ok heqN
    obtain ⟨s1, heqA, hidx, hlu, hrate, hnon, hbal, hdep, hsc, hscb, ht, hmb, hnz⟩ :=
      withdrawCore_ok_inv h
    obtain ⟨hidx1, hlu1, hrate1, hdep1, hsc1, hnon1, hdusd1, hle1⟩ := accrue_ok_inv heqA
    refine ⟨h1, h2, h3, hnb, ?_, ?_, ?_, ?_, hbal, ?_, ?_, ?_, hle1⟩
    · rw [hnon]
    · rw [hidx, hidx1]
    · rw [hlu, hlu1]
    · rw [hrate]
    · exact hdep
    · rw [hsc, hidx, hidx1]
    · exact ht

theorem executeMintRWA_ok_inv {recover : Recover} {extOk : Bool} {s s2 : PoolState}
    {now sender : Nat} {a : MintRWAAction} {sig : String}
    (h : executeMintRWA recover extOk s now sender a sig = .ok s2) :
    now ≤ a.deadline ∧
    a.nonce = s.nonces sender ∧
    recover (.mintA a) sig = sender ∧
    s.nonces sender + 1 < U256 ∧ extOk = true ∧
    s2 = { s with nonces := upd s.nonces sender (s.nonces sender + 1) } := by
  unfold executeMintRWA at h
  split_ifs at h with h1 h2 h3 h4
  · push_neg at h1 h2 h3
    split at h
    · simp at h
    · rename_i n heqN
      obtain ⟨rfl, hnb⟩ := cadd_ok heqN
      cases h
      exact ⟨h1, h2, h3, hnb, h4, rfl⟩
  · split at h
    · simp at h
    · simp at h

theorem executeTransferRWA_ok_inv {recover : Recover} {extOk : Bool} {s s2 : PoolState}
    {now sender : Nat} {a : TransferRWAAction} {sig : String}
    (h : executeTransferRWA recover extOk s now sender a sig = .ok s2) :
    now ≤ a.deadline ∧
    a.nonce = s.nonces sender ∧
    recover (.transferA a) sig = sender ∧
    s.nonces sender + 1 < U256 ∧ extOk = true ∧
    s2 = { s with nonces := upd s.nonces sender (s.nonces sender + 1) } := by
  unfold executeTransferRWA at h
  split_ifs at h with h1 h2 h3 h4
  · push_neg at h1 h2 h3
    split at h
    · simp at h
    · rename_i n heqN
      obtain ⟨rfl, hnb⟩ := cadd_ok heqN
      cases h
      exact ⟨h1, h2, h3, hnb, h4, rfl⟩
  · split at h
    · simp at h
    · simp at h

theorem executeBurnRWA_ok_inv {recover : Recover} {extOk : Bool} {s s2 : PoolState}
    {now sender : Nat} {a : BurnRWAAction} {sig : String}
    (h : executeBurnRWA recover extOk s now sender a sig = .ok s2) :
    now ≤ a.deadline ∧
    a.nonce = s.nonces sender ∧
    recover (.burnA a) sig = sender ∧
    s.nonces sender + 1 < U256 ∧ extOk = true ∧
    s2 = { s with nonces := upd s.nonces sender (s.nonces sender + 1) } := by
  unfold executeBurnRWA at h
  split_ifs at h with h1 h2 h3 h4
  · push_neg at h1 h2 h3
    split at h
    · simp at h
    · rename_i n heqN
      obtain ⟨rfl, hnb⟩ := cadd_ok heqN
      cases h
      exact ⟨h1, h2, h3, hnb, h4, rfl⟩
  · split at h
    · simp at h
    · simp at h


theorem execute_expired {recover : Recover} {extOk : Bool} {s : PoolState}
    {now sender : Nat} {act : Action} {sig : String}
    (h : ¬ now ≤ act.deadline) :
    execute recover extOk s now sender act sig = .error .signatureExpired := by
  cases act <;>
    simp only [Action.deadline] at h <;>
    simp [execute, executeDeposit, executeWithdraw, executeMintRWA,
      executeTransferRWA, executeBurnRWA, h]

theorem execute_badNonce {recover : Recover} {extOk : Bool} {s : PoolState}
    {now sender : Nat} {act : Action} {sig : String}
    (h1 : now ≤ act.deadline) (h2 : act.nonce ≠ s.nonces sender) :
    execute recover extOk s now sender act sig = .error .invalidNonce := by
  cases act <;>
    simp only [Action.deadline, Action.nonce] at h1 h2 <;>
    simp [execute, executeDeposit, executeWithdraw, executeMintRWA,
      executeTransferRWA, executeBurnRWA, h1, h2]

theorem execute_badSig {recover : Recover} {extOk : Bool} {s : PoolState}
    {now sender : Nat} {act : Action} {sig : String}
    (h1 : now ≤ act.deadline) (h2 : act.nonce = s.nonces sender)
    (h3 : recover act sig ≠ sender) :
    execute recover extOk s now sender act sig = .error .invalidSignature := by
  cases act <;>
    simp only [Action.deadline, Action.nonce] at h1 h2 <;>
    simp [execute, executeDeposit, executeWithdraw, executeMintRWA,
      executeTransferRWA, executeBurnRWA, h1, h2, h3]

theorem execute_ok_inv {recover : Recover} {extOk : Bool} {s s2 : PoolState}
    {now sender : Nat} {act : Action} {sig : String}
    (h : execute recover extOk s now sender act sig = .ok s2) :
    now ≤ act.deadline ∧
    act.nonce = s.nonces sender ∧
    recover act sig = sender ∧
    s2.nonces = upd s.nonces sender (s.nonces sender + 1) ∧
    s2.ratePerSecond = s.ratePerSecond ∧
    s.index ≤ s2.index ∧
    (∀ u, u ≠ sender → s2.deposits u = s.deposits u) ∧
    (∀ u, u ≠ sender → s2.scaledDeposits u = s.scaledDeposits u) ∧
    (∀ b, b ≠ sender → b ≠ poolAddr → s2.dusd.balances b = s.dusd.balances b) := by
  cases act with
  | depositA a =>
    obtain ⟨h1, h2, h3, hnb, hnon, hidx, hlu, hrate, hdep, hsc, ht, hle⟩ :=
      executeDeposit_ok_inv h
    obtain ⟨hbal, hbals⟩ := erc20TransferFrom_ok_inv ht
    refine ⟨h1, h2, h3, hnon, hrate, ?_, ?_, ?_, ?_⟩
    · rw [hidx]
      exact Nat.le_add_right _ _
    · intro u hu
      rw [hdep, upd_other _ _ _ _ hu]
    · intro u hu
      rw [hsc, upd_other _ _ _ _ hu]
    · intro b hb1 hb2
      rw [hbals, upd_other _ _ _ _ hb2, upd_other _ _ _ _ hb1]
  | withdrawA a =>
    obtain ⟨h1, h2, h3, hnb, hnon, hidx, hlu, hrate, hbal, hdep, hsc, ht, hle⟩ :=
      executeWithdraw_ok_inv h
    obtain ⟨hall, hbal2, hbals⟩ := erc20Transfer_ok_inv ht
    refine ⟨h1, h2, h3, hnon, hrate, ?_, ?_, ?_, ?_⟩
    · rw [hidx]
      exact Nat.le_add_right _ _
    · intro u hu
      rw [hdep, upd_other _ _ _ _ hu]
    · intro u hu
      rw [hsc, upd_other _ _ _ _ hu]
    · intro b hb1 hb2
      rw [hbals, upd_other _ _ _ _ hb1, upd_other _ _ _ _ hb2]
  | mintA a =>
    obtain ⟨h1, h2, h3, hnb, hext, rfl⟩ := executeMintRWA_ok_inv h
    exact ⟨h1, h2, h3, rfl, rfl, le_refl _, fun _ _ => rfl, fun _ _ => rfl,
      fun _ _ _ => rfl⟩
  | transferA a =>
    obtain ⟨h1, h2, h3, hnb, hext, rfl⟩ := executeTransferRWA_ok_inv h
    exact ⟨h1, h2, h3, rfl, rfl, le_refl _, fun _ _ => rfl, fun _ _ => rfl,
      fun _ _ _ => rfl⟩
  | burnA a =>
    obtain ⟨h1, h2, h3, hnb, hext, rfl⟩ := executeBurnRWA_ok_inv h
    exact ⟨h1, h2, h3, rfl, rfl, le_refl _, fun _ _ => rfl, fun _ _ => rfl,
      fun _ _ _ => rfl⟩


/-! ## Index lemmas for sequences of operations -/

theorem stepOp_ok_index {recover : Recover} {s s1 : PoolState} {c : OpCall}
    (h : stepOp recover s c = .ok s1) :
    s1.index = s.index + (c.now - s.lastUpdate) * s.ratePerSecond / RAY ∨
    s1.index = s.index := by
  obtain ⟨op, now, sender, sig, extOk⟩ := c
  cases op with
  | accrueOp =>
    exact .inl (accrue_ok_inv h).1
  | depositOp amount =>
    obtain ⟨sA, heqA, hidx, -⟩ := depositCore_ok_inv h
    exact .inl (hidx.trans (accrue_ok_inv heqA).1)
  | withdrawOp amount =>
    obtain ⟨sA, heqA, hidx, -⟩ := withdrawCore_ok_inv h
    exact .inl (hidx.trans (accrue_ok_inv heqA).1)
  | executeOp act =>
    cases act with
    | depositA a =>
      obtain ⟨-, -, -, -, -, hidx, -⟩ := executeDeposit_ok_inv h
      exact .inl hidx
    | withdrawA a =>
      obtain ⟨-, -, -, -, -, hidx, -⟩ := executeWithdraw_ok_inv h
      exact .inl hidx
    | mintA a =>
      obtain ⟨-, -, -, -, -, rfl⟩ := executeMintRWA_ok_inv h
      exact .inr rfl
    | transferA a =>
      obtain ⟨-, -, -, -, -, rfl⟩ := executeTransferRWA_ok_inv h
      exact .inr rfl
    | burnA a =>
      obtain ⟨-, -, -, -, -, rfl⟩ := executeBurnRWA_ok_inv h
      exact .inr rfl
  | previewOp user =>
    cases h
    exact .inr rfl

theorem stepOp_index_mono {recover : Recover} {s s1 : PoolState} {c : OpCall}
    (h : stepOp recover s c = .ok s1) : s.index ≤ s1.index := by
  rcases stepOp_ok_index h with h1 | h1
  · rw [h1]
    exact Nat.le_add_right _ _
  · rw [h1]

theorem applyOp_index_mono (recover : Recover) (s : PoolState) (c : OpCall) :
    s.index ≤ (applyOp recover s c).index := by
  unfold applyOp
  split
  · exact stepOp_index_mono (by assumption)
  · exact le_refl _

theorem runOps_index_mono (recover : Recover) (s : PoolState) (ops : List OpCall) :
    s.index ≤ (runOps recover s ops).index := by
  induction ops generalizing s with
  | nil => exact le_refl _
  | cons c cs ih =>
    exact le_trans (applyOp_index_mono recover s c) (ih _)

/-! ## Concrete fixtures for witnesses and counterexamples -/

/-- A token state in which actor `7` holds 100 units and has approved the pool
for 100 units. -/
def tokenW : ERC20State :=
  { balances := fun a => if a = 7 then 100 else 0
    allowances := fun o sp => if o = 7 ∧ sp = poolAddr then 100 else 0 }

/-- A freshly deployed pool (zero rate, for signature/nonce scenarios). -/
def poolW : PoolState :=
  { ratePerSecond := 0, lastUpdate := 5, index := RAY
    deposits := fun _ => 0, scaledDeposits := fun _ => 0, nonces := fun _ => 0
    dusd := tokenW }

/-- A pool with a tiny nonzero rate (1 ray-unit per second), for accrual
floor-division scenarios. -/
def poolSlow : PoolState :=
  { ratePerSecond := 1, lastUpdate := 0, index := RAY
    deposits := fun _ => 0, scaledDeposits := fun _ => 0, nonces := fun _ => 0
    dusd := tokenW }

/-- A pool holding a scaled deposit of 50 for actor `9`, with a rate that
accrues a tenth of `RAY` per second, matching the spec's preview scenario. -/
def poolPreview : PoolState :=
  { ratePerSecond := 10 ^ 53, lastUpdate := 0, index := RAY
    deposits := fun a => if a = 9 then 50 else 0
    scaledDeposits := fun a => if a = 9 then 50 else 0
    nonces := fun _ => 0
    dusd := tokenW }

/-- The state `accrue poolPreview 1` produces. -/
def poolPreviewAfter : PoolState :=
  { poolPreview with index := RAY + 10 ^ 26, lastUpdate := 1 }

/-- A recovery function whose every signature recovers to actor `7` (the
scenario where actor `7` signed the submitted envelope). -/
def recW : Recover := fun _ _ => 7

/-- The state produced by the successful delegated deposit of the witnesses. -/
def execResultW : PoolState :=
  match execute recW true poolW 5 7 (.depositA ⟨10, 0, 10⟩) "sg" with
  | .ok s => s
  | .error _ => poolW

/-- The state produced by `accrue poolSlow 1`. -/
def accrueSlowResult : PoolState :=
  match accrue poolSlow 1 with
  | .ok s => s
  | .error _ => poolSlow

/-! ## Claim C7 -/

/-- Claim C7: `accrue()` computes `elapsed = now - lastUpdate` and, when
`elapsed > 0`, adds exactly `floor(elapsed * ratePerSecond / RAY)` to the
index and sets `lastUpdate := now` (simple linear accrual with floor
division); when `elapsed = 0` it changes no state.  The hypotheses are the
absence of `uint256` overflow in the two checked operations. -/
theorem claim_C7 (s : PoolState) (now : Nat)
    (h1 : s.lastUpdate ≤ now)
    (h2 : (now - s.lastUpdate) * s.ratePerSecond < U256)
    (h3 : s.index + (now - s.lastUpdate) * s.ratePerSecond / RAY < U256) :
    accrue s now = .ok { s with
      index := s.index + (now - s.lastUpdate) * s.ratePerSecond / RAY
      lastUpdate := now } ∧
    (now = s.lastUpdate → accrue s now = .ok s) := by
  constructor
  · rw [accrue_def, if_pos h1]
    by_cases h4 : 0 < now - s.lastUpdate
    · rw [if_pos h4, if_pos h2, if_pos h3]
    · rw [if_neg h4]
      have hz : now = s.lastUpdate := by omega
      subst hz
      simp
  · intro hz
    rw [accrue_noop hz.symm]

/-- Witness for C7 at a concrete state: one second at a rate of `10^53`
accrues exactly `10^26` (a tenth of `RAY`) onto the index. -/
theorem claim_C7_witness :
    accrue poolPreview 1 = .ok { poolPreview with
      index := poolPreview.index + (1 - poolPreview.lastUpdate) * poolPreview.ratePerSecond / RAY
      lastUpdate := 1 } ∧
    accrue poolW 5 = .ok poolW :=
  ⟨(claim_C7 poolPreview 1 (by decide) (by decide) (by decide)).1,
   (claim_C7 poolW 5 (by decide) (by decide) (by decide)).2 rfl⟩


/-! ## Claim C8 -/

/-- Claim C8: `previewBalance(actor)` is a pure read (its type returns no
state), and it returns exactly `scaledDeposit[actor] * I / RAY` where `I` is
the index `accrue()` would produce at the same instant, so it agrees with
the balance observed after running `accrue`.  The hypothesis bounds the
final checked multiplication. -/
theorem claim_C8 (s : PoolState) (now user : Nat) (s1 : PoolState)
    (ha : accrue s now = .ok s1)
    (hm : s.scaledDeposits user * s1.index < U256) :
    previewBalance s now user = .ok (s1.scaledDeposits user * s1.index / RAY) := by
  have hsc : s1.scaledDeposits user = s.scaledDeposits user := by
    rw [(accrue_ok_inv ha).2.2.2.2.1]
  rw [accrue_def] at ha
  split_ifs at ha with h1 h2 h3 h4
  · cases ha
    unfold previewBalance csub cmul cadd
    rw [if_pos h1]
    dsimp only
    rw [if_pos h2, if_pos h3]
    dsimp only
    rw [if_pos h4]
    dsimp only
    rw [if_pos]
    · exact hm
  · cases ha
    unfold previewBalance csub cmul cadd
    rw [if_pos h1]
    dsimp only
    rw [if_neg h2]
    dsimp only
    rw [if_pos hm]

/-- Witness for C8: the spec scenario — a scaled deposit of 50 at starting
index `RAY`; after one second the accrued index is `1.1 * RAY` and
`previewBalance` returns `50 * 1.1 = 55` units. -/
theorem claim_C8_witness :
    accrue poolPreview 1 = .ok poolPreviewAfter ∧
    previewBalance poolPreview 1 9 = .ok 55 :=
  ⟨rfl, claim_C8 poolPreview 1 9 poolPreviewAfter rfl (by decide)⟩


/-! ## Claim C10 -/

/-- Counterexample to C10 as stated: with `ratePerSecond = 1` and one full
second elapsed, `accrue` succeeds, advances `lastUpdate` (so time did
elapse), yet leaves the index exactly equal, because
`floor(1 * 1 / RAY) = 0` — contradicting "equal exactly when no time has
elapsed since the last update". -/
theorem claim_C10_counterexample :
    obs (accrue poolSlow 1) (fun s => s.index) = some poolSlow.index ∧
    obs (accrue poolSlow 1) (fun s => s.lastUpdate) = some 1 ∧
    0 < 1 - poolSlow.lastUpdate :=
  ⟨rfl, rfl, by decide⟩

/-- Claim C10 (amended): the pool index starts at `1 * RAY`; along every
sequence of public operations (with reverted calls leaving state unchanged)
the index is non-decreasing; every successful operation either leaves the
index unchanged or sets it to exactly the accrued value
`index + floor(elapsed * ratePerSecond / RAY)` (so nothing but the accrual
formula ever changes it); and a successful `accrue` leaves the index equal
exactly when `floor(elapsed * ratePerSecond / RAY) = 0` — in particular
whenever no time has elapsed, but also when the rate or elapsed time is so
small that the ray floor division truncates to zero. -/
theorem claim_C10 :
    (∀ (rate now : Nat) (token : ERC20State), (initState rate now token).index = RAY) ∧
    (∀ (recover : Recover) (s : PoolState) (ops : List OpCall),
      s.index ≤ (runOps recover s ops).index) ∧
    (∀ (recover : Recover) (s s1 : PoolState) (c : OpCall),
      stepOp recover s c = .ok s1 →
      s1.index = s.index + (c.now - s.lastUpdate) * s.ratePerSecond / RAY ∨
      s1.index = s.index) ∧
    (∀ (s : PoolState) (now : Nat) (s1 : PoolState), accrue s now = .ok s1 →
      (s1.index = s.index ↔ (now - s.lastUpdate) * s.ratePerSecond / RAY = 0)) := by
  refine ⟨fun _ _ _ => rfl, runOps_index_mono, fun _ _ _ _ h => stepOp_ok_index h, ?_⟩
  intro s now s1 h
  rw [(accrue_ok_inv h).1]
  omega

/-- Witness for C10 at concrete inputs: the deployed index is `RAY`; a
one-step accrual run only increases the index; the characterisation applied
to the concrete slow pool shows the index stays equal exactly because the
floored interest is zero. -/
theorem claim_C10_witness :
    (initState 3 5 tokenW).index = RAY ∧
    poolW.index ≤
      (runOps recW poolW [{ op := .accrueOp, now := 6, sender := 7, sig := "", extOk := true }]).index ∧
    (accrueSlowResult.index =
        poolSlow.index + (1 - poolSlow.lastUpdate) * poolSlow.ratePerSecond / RAY ∨
      accrueSlowResult.index = poolSlow.index) ∧
    (accrueSlowResult.index = poolSlow.index ↔
      (1 - poolSlow.lastUpdate) * poolSlow.ratePerSecond / RAY = 0) := by
  refine ⟨claim_C10.1 3 5 tokenW, claim_C10.2.1 recW poolW _, ?_,
    claim_C10.2.2.2 poolSlow 1 accrueSlowResult rfl⟩
  exact claim_C10.2.2.1 recW poolSlow accrueSlowResult
    { op := .accrueOp, now := 1, sender := 7, sig := "", extOk := true } rfl


/-! ## Claim C1 -/

/-- Counterexample to C1 as stated: a `WithdrawAction` envelope whose nonce
matches the stored nonce, whose deadline has not passed, and whose
signature recovers to the claimed actor, yet whose call fails — the
contract additionally requires `deposits[msg.sender] >= amount`, so
validity of the envelope alone does not make the call succeed. -/
theorem claim_C1_counterexample :
    5 ≤ (10 : Nat) ∧
    (0 : Nat) = poolW.nonces 7 ∧
    recW (.withdrawA ⟨1, 0, 10⟩) "sg" = 7 ∧
    executeWithdraw recW poolW 5 7 ⟨1, 0, 10⟩ "sg" = .error .insufficientBalance :=
  ⟨by decide, rfl, rfl, rfl⟩

/-- Claim C1 (amended): for every delegated entry point, the three envelope
checks are necessary and are reported in order — an expired deadline gives
`Signature expired`; with a live deadline a wrong nonce gives
`Invalid nonce`; with a live deadline and matching nonce a wrong recovered
address gives `Invalid signature` (a revert leaves all state unchanged, by
the all-or-nothing call semantics of the embedding).  On success the
actor's nonce advances to exactly `N + 1` and the action's effect is
applied (stated exactly for the deposit and withdraw entry points).
Success additionally requires the action's own effect to go through
(token transfer, principal check, external RWA call), so the envelope
conditions are necessary but not sufficient. -/
theorem claim_C1 (recover : Recover) (extOk : Bool) (s : PoolState)
    (now sender : Nat) (act : Action) (sig : String) :
    (act.deadline < now →
      execute recover extOk s now sender act sig = .error .signatureExpired) ∧
    (now ≤ act.deadline → act.nonce ≠ s.nonces sender →
      execute recover extOk s now sender act sig = .error .invalidNonce) ∧
    (now ≤ act.deadline → act.nonce = s.nonces sender → recover act sig ≠ sender →
      execute recover extOk s now sender act sig = .error .invalidSignature) ∧
    (∀ s2, execute recover extOk s now sender act sig = .ok s2 →
      now ≤ act.deadline ∧ act.nonce = s.nonces sender ∧ recover act sig = sender ∧
      s2.nonces sender = s.nonces sender + 1) ∧
    (∀ s2 a, act = .depositA a →
      execute recover extOk s now sender act sig = .ok s2 →
      s2.deposits sender = s.deposits sender + a.amount ∧
      s2.scaledDeposits sender = s.scaledDeposits sender + a.amount * RAY / s2.index) ∧
    (∀ s2 a, act = .withdrawA a →
      execute recover extOk s now sender act sig = .ok s2 →
      a.amount ≤ s.deposits sender ∧
      s2.deposits sender = s.deposits sender - a.amount ∧
      s2.scaledDeposits sender = s.scaledDeposits sender - a.amount * RAY / s2.index) := by
  refine ⟨?_, ?_, ?_, ?_, ?_, ?_⟩
  · intro h
    exact execute_expired (by omega)
  · intro h1 h2
    exact execute_badNonce h1 h2
  · intro h1 h2 h3
    exact execute_badSig h1 h2 h3
  · intro s2 h
    obtain ⟨h1, h2, h3, hnon, -⟩ := execute_ok_inv h
    exact ⟨h1, h2, h3, by rw [hnon, upd_same]⟩
  · rintro s2 a rfl h
    obtain ⟨-, -, -, -, -, -, -, -, hdep, hsc, -⟩ := executeDeposit_ok_inv h
    exact ⟨by rw [hdep, upd_same], by rw [hsc, upd_same]⟩
  · rintro s2 a rfl h
    obtain ⟨-, -, -, -, -, -, -, -, hbal, hdep, hsc, -⟩ := executeWithdraw_ok_inv h
    exact ⟨hbal, by rw [hdep, upd_same], by rw [hsc, upd_same]⟩

/-- Witness for C1: the three rejection modes at concrete envelopes, and a
successful concrete delegated deposit advancing the nonce from 0 to 1 and
crediting the deposit. -/
theorem claim_C1_witness :
    execute recW true poolW 20 7 (.depositA ⟨10, 0, 5⟩) "sg" = .error .signatureExpired ∧
    execute recW true poolW 5 7 (.depositA ⟨10, 3, 10⟩) "sg" = .error .invalidNonce ∧
    execute recW true poolW 5 9 (.depositA ⟨10, 0, 10⟩) "sg" = .error .invalidSignature ∧
    execResultW.nonces 7 = poolW.nonces 7 + 1 ∧
    execResultW.deposits 7 = poolW.deposits 7 + 10 :=
  ⟨(claim_C1 recW true poolW 20 7 (.depositA ⟨10, 0, 5⟩) "sg").1 (by decide),
   (claim_C1 recW true poolW 5 7 (.depositA ⟨10, 3, 10⟩) "sg").2.1 (by decide) (by decide),
   (claim_C1 recW true poolW 5 9 (.depositA ⟨10, 0, 10⟩) "sg").2.2.1
     (by decide) (by decide) (by decide),
   ((claim_C1 recW true poolW 5 7 (.depositA ⟨10, 0, 10⟩) "sg").2.2.2.1
     execResultW rfl).2.2.2,
   ((claim_C1 recW true poolW 5 7 (.depositA ⟨10, 0, 10⟩) "sg").2.2.2.2.1
     execResultW ⟨10, 0, 10⟩ rfl rfl).1⟩


/-! ## Claim C2 -/

/-- Counterexample to C2's "rejected with the 'Invalid signature' error" for
every input: a submission by a non-signer (stored nonce of the submitter
differs from the envelope's nonce) is rejected by the earlier nonce check,
so the error is `Invalid nonce`, not `Invalid signature` — the real
repository's own test suite exercises exactly this (a user-signed envelope
with a wrong nonce submitted by another account reverts with
"Invalid nonce"). -/
theorem claim_C2_counterexample :
    recW (.depositA ⟨10, 3, 10⟩) "sg" = 7 ∧
    (7 : Nat) ≠ 9 ∧
    executeDeposit recW poolW 5 9 ⟨10, 3, 10⟩ "sg" = .error .invalidNonce ∧
    EvmError.invalidNonce ≠ EvmError.invalidSignature :=
  ⟨rfl, by decide, rfl, by decide⟩

/-- Claim C2 (amended): success of any delegated entry point implies the
recovered address equals `msg.sender`, and the nonce consumed and balance
effects applied belong to the caller's own account (all other accounts'
nonces, principals, scaled deposits and token balances are untouched).
Consequently a submission by a party other than the signer can never
execute the signed action; the rejection is the `Invalid signature` error
whenever the deadline and nonce checks pass, and otherwise the
corresponding earlier error. -/
theorem claim_C2 (recover : Recover) (extOk : Bool) (s : PoolState)
    (now sender : Nat) (act : Action) (sig : String) :
    (∀ s2, execute recover extOk s now sender act sig = .ok s2 →
      recover act sig = sender ∧
      s2.nonces sender = s.nonces sender + 1 ∧
      (∀ u, u ≠ sender → s2.nonces u = s.nonces u) ∧
      (∀ u, u ≠ sender → s2.deposits u = s.deposits u) ∧
      (∀ u, u ≠ sender → s2.scaledDeposits u = s.scaledDeposits u) ∧
      (∀ b, b ≠ sender → b ≠ poolAddr → s2.dusd.balances b = s.dusd.balances b)) ∧
    (recover act sig ≠ sender →
      ∀ s2, execute recover extOk s now sender act sig ≠ .ok s2) ∧
    (recover act sig ≠ sender → now ≤ act.deadline → act.nonce = s.nonces sender →
      execute recover extOk s now sender act sig = .error .invalidSignature) := by
  refine ⟨?_, ?_, ?_⟩
  · intro s2 h
    obtain ⟨h1, h2, h3, hnon, hrate, hidx, hdep, hsc, hbal⟩ := execute_ok_inv h
    refine ⟨h3, by rw [hnon, upd_same], ?_, hdep, hsc, hbal⟩
    intro u hu
    rw [hnon, upd_other _ _ _ _ hu]
  · intro h3 s2 h
    exact h3 (execute_ok_inv h).2.2.1
  · intro h3 h1 h2
    exact execute_badSig h1 h2 h3

/-- Witness for C2: the relay scenario — the relayer (account 9) submits an
envelope signed by actor 7 with the relayer's current nonce; the contract
rejects it with `Invalid signature` and it never executes. -/
theorem claim_C2_witness :
    execute recW true poolW 5 9 (.depositA ⟨10, 0, 10⟩) "sg" = .error .invalidSignature :=
  (claim_C2 recW true poolW 5 9 (.depositA ⟨10, 0, 10⟩) "sg").2.2
    (by decide) (by decide) (by decide)

/-! ## Claim C3 -/

/-- Counterexample to C3's "always fails with the 'Invalid nonce' rejection":
a successfully executed envelope (deadline 5, executed at time 5) that is
resubmitted at time 6 is rejected, but by the deadline check — which the
entry points run before the nonce check — so the error is
`Signature expired`, not the replay error. -/
theorem claim_C3_counterexample :
    obs (executeDeposit recW poolW 5 7 ⟨10, 0, 5⟩ "sg") (fun s => s.nonces 7) = some 1 ∧
    (executeDeposit recW poolW 5 7 ⟨10, 0, 5⟩ "sg" >>= fun s1 =>
      executeDeposit recW s1 6 7 ⟨10, 0, 5⟩ "sg") = .error .signatureExpired ∧
    EvmError.signatureExpired ≠ EvmError.invalidNonce :=
  ⟨rfl, rfl, by decide⟩

/-- Claim C3 (amended): once an envelope has been successfully executed,
resubmitting the identical envelope (same action fields, same signature)
always fails and never re-applies the effect, at every later (or equal)
submission time and for every outcome of the external RWA call: the stored
nonce was advanced past the envelope's nonce, so the rejection is
`Invalid nonce` whenever the deadline has not yet passed at resubmission
time, and `Signature expired` otherwise. -/
theorem claim_C3 (recover : Recover) (extOk extOk2 : Bool) (s s1 : PoolState)
    (now1 now2 sender : Nat) (act : Action) (sig : String)
    (h : execute recover extOk s now1 sender act sig = .ok s1) :
    execute recover extOk2 s1 now2 sender act sig =
      .error (if now2 ≤ act.deadline then .invalidNonce else .signatureExpired) := by
  obtain ⟨h1, h2, h3, hnon, -⟩ := execute_ok_inv h
  have hstep : s1.nonces sender = s.nonces sender + 1 := by rw [hnon, upd_same]
  by_cases hd : now2 ≤ act.deadline
  · rw [if_pos hd]
    exact execute_badNonce hd (by omega)
  · rw [if_neg hd]
    exact execute_expired hd

/-- Witness for C3: resubmitting the concrete executed envelope of the
witnesses right away (still within its deadline) fails with
`Invalid nonce`. -/
theorem claim_C3_witness :
    execute recW true execResultW 5 7 (.depositA ⟨10, 0, 10⟩) "sg" = .error .invalidNonce :=
  claim_C3 recW true true poolW execResultW 5 5 7 (.depositA ⟨10, 0, 10⟩) "sg" rfl


/-! ## Claim C9 -/

/-- Claim C9: depositing `X` and immediately withdrawing `X` at the same
instant (so the second internal `accrue` sees zero elapsed time and the
index is identical in both operations) restores `deposits` and
`scaledDeposits` exactly — the same `floor(X * RAY / index)` is added and
then subtracted.  The hypotheses are that the deposit succeeded (which
encodes `X` not exceeding the actor's token balance and allowance) and
that the pool's token balance does not overflow a `uint256` when
receiving `X`. -/
theorem claim_C9 (s : PoolState) (now u X : Nat) (s1 : PoolState)
    (hd : deposit s now u X = .ok s1)
    (hb : s.dusd.balances poolAddr + X < U256) :
    ∃ s2, withdraw s1 now u X = .ok s2 ∧
      s2.deposits = s.deposits ∧
      s2.scaledDeposits = s.scaledDeposits := by
  obtain ⟨sA, heqA, hidx, hlu, hrate, hnon, hdep, hsc, ht, hmb, hnz, hdb, hscb⟩ :=
    depositCore_ok_inv hd
  obtain ⟨hAidx, hAlu, hArate, hAdep, hAsc, hAnon, hAdusd, hAle⟩ := accrue_ok_inv heqA
  have hnoop : accrue s1 now = .ok s1 := accrue_noop (by rw [hlu, hAlu])
  obtain ⟨hbalX, hbals⟩ := erc20TransferFrom_ok_inv ht
  have hb1 : upd s.dusd.balances u (s.dusd.balances u - X) poolAddr ≤
      s.dusd.balances poolAddr := by
    rcases eq_or_ne poolAddr u with hpu | hpu
    · rw [hpu, upd_same, ← hpu]
      omega
    · rw [upd_other _ _ _ _ hpu]
  have hpool : X ≤ s1.dusd.balances poolAddr := by
    rw [hbals, upd_same, Nat.mod_eq_of_lt (by omega)]
    omega
  have hwc := withdrawCore_eq_ok hnoop
    (by rw [hdep, upd_same]; omega)
    hmb
    (by rw [hidx]; exact hnz)
    (by rw [hsc, upd_same, hidx]; exact Nat.le_add_left _ _)
    (erc20Transfer_eq_ok hpool)
  refine ⟨_, hwc, ?_, ?_⟩
  · funext x
    rcases eq_or_ne x u with rfl | hx
    · show upd s1.deposits x (s1.deposits x - X) x = s.deposits x
      rw [upd_same, hdep, upd_same]
      omega
    · show upd s1.deposits u (s1.deposits u - X) x = s.deposits x
      rw [upd_other _ _ _ _ hx, hdep, upd_other _ _ _ _ hx]
  · funext x
    rcases eq_or_ne x u with rfl | hx
    · show upd s1.scaledDeposits x (s1.scaledDeposits x - X * RAY / s1.index) x =
        s.scaledDeposits x
      rw [upd_same, hsc, upd_same, hidx]
      omega
    · show upd s1.scaledDeposits u (s1.scaledDeposits u - X * RAY / s1.index) x =
        s.scaledDeposits x
      rw [upd_other _ _ _ _ hx, hsc, upd_other _ _ _ _ hx]

/-- The state after the concrete witness deposit of 50 units. -/
def depositResultW : PoolState :=
  match deposit poolW 5 7 50 with
  | .ok s => s
  | .error _ => poolW

/-- Witness for C9: actor 7 deposits 50 units into the fresh pool and
withdraws them in the same instant; principal and scaled deposit return to
their original (zero) values. -/
theorem claim_C9_witness :
    ∃ s2, withdraw depositResultW 5 7 50 = .ok s2 ∧
      s2.deposits = poolW.deposits ∧
      s2.scaledDeposits = poolW.scaledDeposits :=
  claim_C9 poolW 5 7 50 depositResultW rfl (by decide)


/-! ## Claim C5 -/

/-- Counterexample to C5 as stated: the contract's `deposit` has no
zero-amount check — `deposit(0)` succeeds (no revert) instead of failing
with an `InvalidAmount` error; the actor's principal and scaled deposit are
simply unchanged. -/
theorem claim_C5_counterexample :
    errOf (deposit poolW 5 7 0) = none ∧
    obs (deposit poolW 5 7 0) (fun s => s.deposits 7) = some (poolW.deposits 7) ∧
    obs (deposit poolW 5 7 0) (fun s => s.scaledDeposits 7) = some (poolW.scaledDeposits 7) :=
  ⟨rfl, rfl, rfl⟩

/-- Claim C5 (amended): the lending-pool contract does not validate the
amount: `deposit(0)` succeeds and leaves `deposits`, `scaledDeposits`,
every token balance and every nonce unchanged (only the accrual side
effect on `index` / `lastUpdate` happens).  The `amount > 0` rejection
exists only in the relay gateway, which rejects a parsed amount `<= 0`
with a 400 `Amount must be greater than 0` response (code
`INVALID_AMOUNT` on the secure server, no code on the basic one) before
forwarding anything to the contract. -/
theorem claim_C5 (s : PoolState) (now u : Nat) (s1 : PoolState)
    (ha : accrue s now = .ok s1)
    (hidx : 0 < s1.index)
    (hbalp : s.dusd.balances poolAddr < U256)
    (hscw : s.scaledDeposits u < U256)
    (hdw : s.deposits u < U256) :
    (∃ s2, deposit s now u 0 = .ok s2 ∧
      s2.deposits = s.deposits ∧
      s2.scaledDeposits = s.scaledDeposits ∧
      s2.dusd.balances = s.dusd.balances ∧
      s2.nonces = s.nonces ∧
      s2.index = s1.index ∧ s2.lastUpdate = s1.lastUpdate) ∧
    (∀ (lib : JsLib) (gnow : Nat) (req : DepositRequest) (v : Int),
      fieldTruthy req.amount = true → fieldTruthy req.nonce = true →
      fieldTruthy req.deadline = true → fieldTruthy req.signature = true →
      fieldIsString req.amount = true → fieldIsString req.nonce = true →
      fieldIsString req.deadline = true → fieldIsString req.signature = true →
      lib.parseEther (fieldStr req.amount) = some v → v ≤ 0 →
      basicDepositPre lib gnow req = .reject 400 "Amount must be greater than 0" none ∧
      secureDepositPre lib gnow req =
        .reject 400 "Amount must be greater than 0" (some "INVALID_AMOUNT")) := by
  obtain ⟨hAidx, hAlu, hArate, hAdep, hAsc, hAnon, hAdusd, hAle⟩ := accrue_ok_inv ha
  constructor
  · obtain ⟨t1, hsa, ht1bal, ht1all⟩ := erc20SpendAllowance_zero s1.dusd u poolAddr
    have htr := @erc20Transfer_eq_ok t1 u poolAddr 0 (Nat.zero_le _)
    have ht : erc20TransferFrom s1.dusd poolAddr u poolAddr 0 = .ok
        { t1 with balances :=
            (upd (upd t1.balances u (t1.balances u - 0)) poolAddr
              ((upd t1.balances u (t1.balances u - 0) poolAddr + 0) % U256)) } := by
      unfold erc20TransferFrom
      rw [hsa]
      exact htr
    have h0 : (0 : Nat) * RAY / s1.index = 0 := by simp
    have hdc := depositCore_eq_ok ha ht (by simp [U256])
      hidx (by rw [h0, hAsc]; omega) (by rw [hAdep]; omega)
    refine ⟨_, hdc, ?_, ?_, ?_, ?_, rfl, rfl⟩
    · funext x
      dsimp only
      rcases eq_or_ne x u with rfl | hx
      · rw [upd_same, hAdep]
        omega
      · rw [upd_other _ _ _ _ hx, hAdep]
    · funext x
      dsimp only
      rcases eq_or_ne x u with rfl | hx
      · rw [upd_same, h0, hAsc]
        omega
      · rw [upd_other _ _ _ _ hx, hAsc]
    · funext x
      show upd (upd t1.balances u (t1.balances u - 0)) poolAddr
        ((upd t1.balances u (t1.balances u - 0) poolAddr + 0) % U256) x = s.dusd.balances x
      have hb1 : ∀ y, upd t1.balances u (t1.balances u - 0) y = s.dusd.balances y := by
        intro y
        rcases eq_or_ne y u with rfl | hy
        · rw [upd_same, ht1bal, hAdusd]
          omega
        · rw [upd_other _ _ _ _ hy, ht1bal, hAdusd]
      rcases eq_or_ne x poolAddr with rfl | hx
      · rw [upd_same, hb1, Nat.add_zero, Nat.mod_eq_of_lt hbalp]
      · rw [upd_other _ _ _ _ hx, hb1]
    · rw [hAnon]
  · intro lib gnow req v h1 h2 h3 h4 h5 h6 h7 h8 hpe hv
    constructor
    · unfold basicDepositPre
      rw [h1, h2, h3, h4, h5, h6, h7, h8]
      simp only [Bool.and_self, Bool.not_true, Bool.false_eq_true, if_false, hpe]
      rw [if_pos hv]
    · unfold secureDepositPre
      rw [h1, h2, h3, h4, h5, h6, h7, h8]
      simp only [Bool.and_self, Bool.not_true, Bool.false_eq_true, if_false, hpe]
      rw [if_pos hv]

/-! Gateway fixtures shared by the witnesses. -/

/-- Concrete parsing functions for the gateway witnesses. -/
def libW : JsLib :=
  { parseEther := fun str =>
      if str = "0" then some 0
      else if str = "1" then some (10 ^ 18)
      else if str = "150" then some (150 * 10 ^ 18)
      else none
    parseIntF := fun str =>
      if str = "9" then some 9
      else if str = "3000" then some 3000
      else none
    toBigInt := fun str =>
      if str = "0" then some 0
      else if str = "3000" then some 3000
      else none }

/-- A request carrying a zero amount. -/
def reqZeroW : DepositRequest :=
  { amount := some (.strF "0"), nonce := some (.strF "0")
    deadline := some (.strF "3000"), signature := some (.strF "sg") }

/-- Witness for C5: in the fresh pool, `deposit(0)` by actor 7 succeeds with
principal and scaled deposit untouched, while both gateway variants reject
the zero-amount request with a 400 before any contract call. -/
theorem claim_C5_witness :
    errOf (deposit poolW 5 7 0) = none ∧
    basicDepositPre libW 10 reqZeroW = .reject 400 "Amount must be greater than 0" none ∧
    secureDepositPre libW 10 reqZeroW =
      .reject 400 "Amount must be greater than 0" (some "INVALID_AMOUNT") := by
  obtain ⟨⟨s2, hdep, -⟩, hgw⟩ :=
    claim_C5 poolW 5 7 poolW rfl (by decide) (by decide) (by decide) (by decide)
  have hg := hgw libW 10 reqZeroW 0 rfl rfl rfl rfl rfl rfl rfl rfl rfl (by decide)
  exact ⟨by rw [hdep]; rfl, hg.1, hg.2⟩


/-! ## Claim C4 -/

/-- The HTTP status a pre-validation phase rejected with (`none` when the
request was forwarded to the contract). -/
def GwPre.rejectStatus : GwPre → Option Nat
  | .reject st _ _ => some st
  | .forward _ _ => none

/-- Claim C4: an envelope whose deadline lies strictly in the past always
fails with the expiry error on chain — every one of the five entry points
checks `block.timestamp <= deadline` before the nonce and signature checks,
so the rejection is `Signature expired` regardless of nonce or signature —
and the gateway rejects any well-formed request whose parsed deadline is in
the past with a 400 response during pre-validation, never reaching the
contract (`rejectStatus = some 400` means the handler returned without
forwarding). -/
theorem claim_C4 :
    (∀ (recover : Recover) (extOk : Bool) (s : PoolState) (now sender : Nat)
        (act : Action) (sig : String),
      act.deadline < now →
      execute recover extOk s now sender act sig = .error .signatureExpired) ∧
    (∀ (lib : JsLib) (gnow : Nat) (req : DepositRequest) (v dl : Int),
      fieldTruthy req.amount = true → fieldTruthy req.nonce = true →
      fieldTruthy req.deadline = true → fieldTruthy req.signature = true →
      fieldIsString req.amount = true → fieldIsString req.nonce = true →
      fieldIsString req.deadline = true → fieldIsString req.signature = true →
      lib.parseEther (fieldStr req.amount) = some v →
      lib.parseIntF (fieldStr req.deadline) = some dl →
      dl < (gnow : Int) →
      (basicDepositPre lib gnow req).rejectStatus = some 400 ∧
      (secureDepositPre lib gnow req).rejectStatus = some 400) := by
  constructor
  · intro recover extOk s now sender act sig h
    exact execute_expired (by omega)
  · intro lib gnow req v dl h1 h2 h3 h4 h5 h6 h7 h8 hpe hpi hlt
    have hle : jsLE (lib.parseIntF (fieldStr req.deadline)) gnow = true := by
      rw [hpi]
      simp only [jsLE, decide_eq_true_eq]
      omega
    constructor
    · unfold basicDepositPre
      rw [h1, h2, h3, h4, h5, h6, h7, h8]
      simp only [Bool.and_self, Bool.not_true, Bool.false_eq_true, if_false, hpe]
      split_ifs <;> rfl
    · unfold secureDepositPre
      rw [h1, h2, h3, h4, h5, h6, h7, h8]
      simp only [Bool.and_self, Bool.not_true, Bool.false_eq_true, if_false, hpe]
      split_ifs <;> rfl

/-- A well-formed request whose deadline string parses to 9, submitted at
time 10 — one second past its deadline. -/
def reqExpiredW : DepositRequest :=
  { amount := some (.strF "1"), nonce := some (.strF "0")
    deadline := some (.strF "9"), signature := some (.strF "sg") }

/-- Witness for C4: the concrete expired envelope is rejected on chain with
`Signature expired` and by both gateway variants with a 400 during
pre-validation. -/
theorem claim_C4_witness :
    execute recW true poolW 20 7 (.withdrawA ⟨10, 0, 15⟩) "sg" = .error .signatureExpired ∧
    (basicDepositPre libW 10 reqExpiredW).rejectStatus = some 400 ∧
    (secureDepositPre libW 10 reqExpiredW).rejectStatus = some 400 := by
  have hg := claim_C4.2 libW 10 reqExpiredW (10 ^ 18) 9
    rfl rfl rfl rfl rfl rfl rfl rfl rfl rfl (by decide)
  exact ⟨claim_C4.1 recW true poolW 20 7 (.withdrawA ⟨10, 0, 15⟩) "sg" (by decide),
    hg.1, hg.2⟩


/-! ## Claim C6 -/

/-- The machine-readable codes the secure relayer's deposit route can
actually emit. -/
def secureCodes : List String :=
  ["MISSING_FIELDS", "INVALID_TYPES", "INVALID_AMOUNT", "MULTI_SIG_REQUIRED",
   "SIGNATURE_EXPIRED", "DEADLINE_TOO_FAR", "INVALID_NONCE", "INVALID_SIGNATURE",
   "TRANSACTION_FAILED"]

theorem secureDepositPre_reject_code {lib : JsLib} {gnow : Nat} {req : DepositRequest}
    {st : Nat} {er : String} {cd : Option String}
    (h : secureDepositPre lib gnow req = .reject st er cd) :
    ∃ c, cd = some c ∧ c ∈ secureCodes := by
  unfold secureDepositPre at h
  repeat' split at h
  all_goals first
    | (cases h; exact ⟨_, rfl, by simp [secureCodes]⟩)
    | cases h

theorem basicDepositPre_reject_noCode {lib : JsLib} {gnow : Nat} {req : DepositRequest}
    {st : Nat} {er : String} {cd : Option String}
    (h : basicDepositPre lib gnow req = .reject st er cd) :
    cd = none := by
  unfold basicDepositPre at h
  repeat' split at h
  all_goals cases h
  all_goals rfl

theorem secureMapChainError_code (e : EvmError) :
    ∃ c, (secureMapChainError e).code = some c ∧ c ∈ secureCodes := by
  cases e <;> exact ⟨_, rfl, by simp [secureCodes]⟩

theorem basicMapChainError_noCode (e : EvmError) :
    (basicMapChainError e).code = none := by
  cases e <;> rfl

/-- Counterexample to C6 as stated: the secure relayer's deposit route
rejects a well-formed request for 150 tokens with a failure response whose
code is `MULTI_SIG_REQUIRED` — a code outside the claimed set
{INVALID_NONCE, INVALID_SIGNATURE, SIGNATURE_EXPIRED, MISSING_FIELDS,
INVALID_AMOUNT, EXECUTION_FAILED} (and `EXECUTION_FAILED` itself is never
emitted: the catch-all code is `TRANSACTION_FAILED`). -/
theorem claim_C6_counterexample :
    (secureDepositEndpoint libW recW 9 10 poolW
        { amount := some (.strF "150"), nonce := some (.strF "0")
          deadline := some (.strF "3000"), signature := some (.strF "sg") }).1 =
      { status := 400, success := false
        errorMsg := some "Large transaction requires multi-signature approval"
        code := some "MULTI_SIG_REQUIRED" } ∧
    ("MULTI_SIG_REQUIRED" : String) ≠ "INVALID_NONCE" ∧
    ("MULTI_SIG_REQUIRED" : String) ≠ "INVALID_SIGNATURE" ∧
    ("MULTI_SIG_REQUIRED" : String) ≠ "SIGNATURE_EXPIRED" ∧
    ("MULTI_SIG_REQUIRED" : String) ≠ "MISSING_FIELDS" ∧
    ("MULTI_SIG_REQUIRED" : String) ≠ "INVALID_AMOUNT" ∧
    ("MULTI_SIG_REQUIRED" : String) ≠ "EXECUTION_FAILED" :=
  ⟨rfl, by decide, by decide, by decide, by decide, by decide, by decide⟩

/-- Claim C6 (amended): every failure response of the secure relayer's
deposit route carries a machine-readable `code` drawn from
{MISSING_FIELDS, INVALID_TYPES, INVALID_AMOUNT, MULTI_SIG_REQUIRED,
SIGNATURE_EXPIRED, DEADLINE_TOO_FAR, INVALID_NONCE, INVALID_SIGNATURE,
TRANSACTION_FAILED}; the basic relayer's responses never carry any `code`
field; and a second submission of an identical already-executed signed
envelope, made while the envelope is still within its deadline and its
pre-validation window, returns `code = INVALID_NONCE`. -/
theorem claim_C6 :
    (∀ (lib : JsLib) (recover : Recover) (relayer gnow : Nat) (pool : PoolState)
        (req : DepositRequest),
      (secureDepositEndpoint lib recover relayer gnow pool req).1.success = false →
      ∃ c, (secureDepositEndpoint lib recover relayer gnow pool req).1.code = some c ∧
        c ∈ secureCodes) ∧
    (∀ (lib : JsLib) (recover : Recover) (relayer gnow : Nat) (pool : PoolState)
        (req : DepositRequest),
      (basicDepositEndpoint lib recover relayer gnow pool req).1.code = none) ∧
    (∀ (lib : JsLib) (recover : Recover) (relayer now1 now2 : Nat)
        (pool pool1 : PoolState) (req : DepositRequest) (act : DepositAction) (sg : String),
      secureDepositPre lib now1 req = .forward act sg →
      executeDeposit recover pool now1 relayer act sg = .ok pool1 →
      secureDepositPre lib now2 req = .forward act sg →
      now2 ≤ act.deadline →
      (secureDepositEndpoint lib recover relayer now2 pool1 req).1 =
        { status := 400, success := false
          errorMsg := some "Invalid nonce - possible replay attack"
          code := some "INVALID_NONCE" }) := by
  refine ⟨?_, ?_, ?_⟩
  · intro lib recover relayer gnow pool req hfail
    unfold secureDepositEndpoint at hfail ⊢
    cases hpre : secureDepositPre lib gnow req with
    | reject st er cd =>
      dsimp only
      exact secureDepositPre_reject_code hpre
    | forward act sg =>
      rw [hpre] at hfail
      dsimp only at hfail ⊢
      cases hex : executeDeposit recover pool gnow relayer act sg with
      | ok pool1 =>
        rw [hex] at hfail
        simp at hfail
      | error e =>
        exact secureMapChainError_code e
  · intro lib recover relayer gnow pool req
    unfold basicDepositEndpoint
    cases hpre : basicDepositPre lib gnow req with
    | reject st er cd =>
      dsimp only
      exact basicDepositPre_reject_noCode hpre
    | forward act sg =>
      dsimp only
      cases hex : executeDeposit recover pool gnow relayer act sg with
      | ok pool1 => rfl
      | error e => exact basicMapChainError_noCode e
  · intro lib recover relayer now1 now2 pool pool1 req act sg hpre1 hex1 hpre2 hd2
    obtain ⟨h1, h2, h3, hnb, hnon, -⟩ := executeDeposit_ok_inv hex1
    have hbad : executeDeposit recover pool1 now2 relayer act sg = .error .invalidNonce := by
      have heq : executeDeposit recover pool1 now2 relayer act sg =
          execute recover true pool1 now2 relayer (.depositA act) sg := rfl
      rw [heq]
      refine execute_badNonce hd2 ?_
      show act.nonce ≠ pool1.nonces relayer
      rw [hnon, upd_same]
      omega
    unfold secureDepositEndpoint
    rw [hpre2]
    dsimp only
    rw [hbad]
    rfl

/-- A pool whose actor 7 holds ample token balance and allowance for the
full-stack replay scenario. -/
def poolBig : PoolState :=
  { ratePerSecond := 0, lastUpdate := 5, index := RAY
    deposits := fun _ => 0, scaledDeposits := fun _ => 0, nonces := fun _ => 0
    dusd :=
      { balances := fun a => if a = 7 then 10 ^ 19 else 0
        allowances := fun o sp => if o = 7 ∧ sp = poolAddr then 10 ^ 19 else 0 } }

/-- A well-formed request for one token, valid until time 3000. -/
def reqOneW : DepositRequest :=
  { amount := some (.strF "1"), nonce := some (.strF "0")
    deadline := some (.strF "3000"), signature := some (.strF "sg") }

/-- The pool state after the secure gateway's first successful submission of
`reqOneW` (actor 7 self-relays an envelope it signed). -/
def poolBigAfter : PoolState :=
  match executeDeposit recW poolBig 10 7 ⟨10 ^ 18, 0, 3000⟩ "sg" with
  | .ok s => s
  | .error _ => poolBig

/-- Witness for C6: a basic-relayer response with no code, and the concrete
replay — the envelope executed at time 10 and resubmitted at time 11 comes
back with `code = INVALID_NONCE`. -/
theorem claim_C6_witness :
    (basicDepositEndpoint libW recW 9 10 poolW reqZeroW).1.code = none ∧
    (secureDepositEndpoint libW recW 7 11 poolBigAfter reqOneW).1 =
      { status := 400, success := false
        errorMsg := some "Invalid nonce - possible replay attack"
        code := some "INVALID_NONCE" } :=
  ⟨claim_C6.2.1 libW recW 9 10 poolW reqZeroW,
   claim_C6.2.2 libW recW 7 10 11 poolBig poolBigAfter reqOneW ⟨10 ^ 18, 0, 3000⟩ "sg"
     (by rfl) (by rfl) (by rfl) (by decide)⟩

end DeFiFlow
